import Mathlib

/-!
# Verification of sqlscope's DDL catalog builder and query structural extractor

This file gives a shallow embedding of `src/sqlscope/catalog/builder/sql.py`
(`build_catalog_from_sql` and its helpers) and of
`src/sqlscope/query/extractors.py` (`extract_subqueries_tokens`, `remove_ctes`),
and proves properties of the embedded code.

The upstream SQL parser (`sqlglot`) and tokenizer (`sqlparse`) are external
libraries, consumed only at their interface: abstract-syntax nodes and grouped
token streams are embedded as inductive types mirroring exactly the node shapes
and attributes the source reads (`this`, `db`, `kind`, `expressions`, `quoted`,
token `ttype`/`value`, group kinds), and the builder is modelled from the point
where the parsed statement list is available.

The Catalog data model (`sqlscope/catalog/catalog.py`, `constraint.py`) is part
of the repository but not available here; it is modelled from the spec where
noted.
-/

namespace Sqlscope

/-! ## Python string primitives (structural, so that concrete instances
evaluate inside the kernel) -/

/-- Python `str.lower()`, as used on the identifiers at hand (ASCII case
mapping): lower-case every character. -/
def strLower (s : String) : String := ⟨s.data.map Char.toLower⟩

/-- Python `str.upper()` (ASCII case mapping): upper-case every character. -/
def strUpper (s : String) : String := ⟨s.data.map Char.toUpper⟩

/-- Python `str.strip()`: drop leading and trailing whitespace. -/
def pyStrip (s : String) : String :=
  ⟨((s.data.dropWhile Char.isWhitespace).reverse.dropWhile Char.isWhitespace).reverse⟩

/-- Python `str.startswith(p)`. -/
def pyStartsWith (s p : String) : Bool := p.data.isPrefixOf s.data

/-- Python `str.endswith(p)`. -/
def pyEndsWith (s p : String) : Bool := p.data.reverse.isPrefixOf s.data.reverse

/-- Python `set.add`: a set of strings is embedded as the duplicate-free list
of its elements in insertion order; adding is a no-op when the element is
already present and appends otherwise. Set equality is expressed in the
theorems via `List.toFinset`. -/
def pySetAdd (l : List String) (x : String) : List String :=
  if x ∈ l then l else l ++ [x]

/-- A Python set built by adding the given elements in order to `set()`. -/
def pySetOf (names : List String) : List String := names.foldl pySetAdd []

/-! ## Catalog data model -/

/-- Modelled from the spec: `ConstraintType` from `sqlscope/catalog/constraint.py`
(not available in the sources); `constraint_type ∈ {PRIMARY_KEY, UNIQUE}`. -/
inductive ConstraintType where
  | PRIMARY_KEY
  | UNIQUE
deriving DecidableEq, Repr

/-- Modelled from the spec: a `UniqueConstraint` of the Catalog data model
(`sqlscope/catalog`, not available in the sources): an unordered, non-empty set
of column names plus a constraint type. The column set is a Python `set`,
embedded as the duplicate-free list of its elements in insertion order (see
`pySetAdd`). -/
structure UniqueConstraint where
  columns : List String
  constraint_type : ConstraintType
deriving DecidableEq, Repr

/-- Modelled from the spec: a `Column` of the Catalog data model
(`sqlscope/catalog`, not available in the sources): name, raw type keyword,
optional numeric precision/scale, nullability, and an optional foreign-key
reference `(schema, table, column)`. -/
structure Column where
  name : String
  column_type : String
  numeric_precision : Option Int
  numeric_scale : Option Int
  is_nullable : Bool
  fk_schema : Option String
  fk_table : Option String
  fk_column : Option String
deriving DecidableEq, Repr

/-- Modelled from the spec: a `Table` of the Catalog data model: an ordered
sequence of columns (insertion order = declaration order) and the constraints
added so far (`add_unique_constraint` appends and does not deduplicate). -/
structure Table where
  columns : List Column
  constraints : List UniqueConstraint
deriving DecidableEq, Repr

/-- Modelled from the spec: a `Schema` of the Catalog data model: an ordered
mapping from table name to `Table`. -/
structure Schema where
  tables : List (String × Table)
deriving DecidableEq, Repr

/-- Modelled from the spec: the `Catalog` root: an ordered mapping from schema
name to `Schema`, created empty and populated incrementally. -/
structure Catalog where
  schemas : List (String × Schema)
deriving DecidableEq, Repr

/-- Lookup in an ordered mapping, returning `empty` when the key is absent
(the key side of Python auto-vivification). -/
def lookupOrEmpty {α : Type} (l : List (String × α)) (k : String) (empty : α) : α :=
  match l.find? (fun p => p.1 = k) with
  | some p => p.2
  | none => empty

/-- Update the entry for `k` in place, or append it when absent
(the write-back side of Python auto-vivification). -/
def updateOrAppend {α : Type} (l : List (String × α)) (k : String) (v : α) :
    List (String × α) :=
  if l.any (fun p => p.1 = k) then
    l.map (fun p => if p.1 = k then (k, v) else p)
  else
    l ++ [(k, v)]

/-- `catalog[schema_name][table_name]`: auto-vivifying lookup of a table. -/
def Catalog.getTable (cat : Catalog) (schema_name table_name : String) : Table :=
  lookupOrEmpty (lookupOrEmpty cat.schemas schema_name ⟨[]⟩).tables table_name ⟨[], []⟩

/-- Write a table back into the catalog, creating the enclosing schema entry
when absent. -/
def Catalog.setTable (cat : Catalog) (schema_name table_name : String) (tb : Table) :
    Catalog :=
  let sch := lookupOrEmpty cat.schemas schema_name ⟨[]⟩
  ⟨updateOrAppend cat.schemas schema_name ⟨updateOrAppend sch.tables table_name tb⟩⟩

/-- One catalog mutation emitted by the DDL builder: an `add_column` or an
`add_unique_constraint` call on `catalog[schema][table]`. -/
inductive Op where
  | addColumn (schema_name table_name : String) (col : Column)
  | addConstraint (schema_name table_name : String) (c : UniqueConstraint)
deriving DecidableEq, Repr

/-- Modelled from the spec: `add_column` appends a `Column` to the table
(auto-vivifying schema and table), `add_unique_constraint` appends a
`UniqueConstraint`; neither deduplicates. -/
def applyOp (cat : Catalog) : Op → Catalog
  | .addColumn s t col =>
      let tb := cat.getTable s t
      cat.setTable s t ⟨tb.columns ++ [col], tb.constraints⟩
  | .addConstraint s t c =>
      let tb := cat.getTable s t
      cat.setTable s t ⟨tb.columns, tb.constraints ++ [c]⟩

/-- Apply a sequence of catalog mutations in order. -/
def applyOps (cat : Catalog) : List Op → Catalog
  | [] => cat
  | op :: rest => applyOps (applyOp cat op) rest

/-! ## sqlglot AST nodes, at the interface consumed by `sql.py` -/

/-- A `sqlglot` `exp.Identifier`: raw text plus the `quoted` flag. -/
structure Identifier where
  name : String
  quoted : Bool
deriving DecidableEq, Repr

/-- The `this` attribute of a name-bearing node, as tested by the source's
`isinstance(…, exp.Identifier)` checks: either an `Identifier` node or some
other expression, of which the code only uses `str(…)`. -/
inductive NameExpr where
  | ident (i : Identifier)
  | raw (s : String)
deriving DecidableEq, Repr

/-- A `sqlglot` `exp.Table`: the table identifier (`this`) and the optional
schema qualifier (`db`; `none` embeds Python falsiness of `table_exp.db`). -/
structure TableExpr where
  this : NameExpr
  db : Option NameExpr
deriving DecidableEq, Repr

/-- A `sqlglot` `exp.Schema` node as used inside `REFERENCES …` targets and
`UNIQUE (…)` constraints: `this` (checked to be a `Table` where required) and
the column identifier list `expressions`. -/
structure SchemaExpr where
  this : Option TableExpr
  expressions : List Identifier
deriving DecidableEq, Repr

/-- A `sqlglot` `exp.Reference` (a `REFERENCES` clause): its `this` must be an
`exp.Schema` (`none` embeds an absent or differently-typed attribute). -/
structure ReferenceNode where
  this : Option SchemaExpr
deriving DecidableEq, Repr

/-- A `sqlglot` `exp.UniqueColumnConstraint` node: `this` is an `exp.Schema`
for a table-level `UNIQUE (…)` and absent for an inline column `UNIQUE`
marker; `expressions` is the node's own `expressions` arg (distinct from
`this.expressions`, which is where a table-level node lists its columns). -/
structure UniqueNode where
  this : Option SchemaExpr
  expressions : List Identifier
deriving DecidableEq, Repr

/-- The `kind` of a `sqlglot` `exp.ColumnConstraint`, covering the classes the
source dispatches on; `other` stands for any further constraint kind. -/
inductive ConstraintKind where
  | primaryKey
  | unique (u : UniqueNode)
  | notNull
  | reference (r : ReferenceNode)
  | other
deriving DecidableEq, Repr

/-- One argument of a `sqlglot` `exp.DataType`: an integer `exp.Literal`
(`is_int` true, with its parsed value), a non-integer literal, or any other
expression. -/
inductive TypeArg where
  | intLit (n : Int)
  | otherLit
  | nonLiteral
deriving DecidableEq, Repr

/-- A `sqlglot` `exp.DataType`: `thisValue` embeds `datatype_exp.this.value`
(the type-keyword enum value, e.g. `"DECIMAL"`), plus the argument list. -/
structure DataType where
  thisValue : String
  expressions : List TypeArg
deriving DecidableEq, Repr

/-- A `sqlglot` `exp.ColumnDef`: name (`this`), optional type (`kind`; `none`
embeds an absent or non-`DataType` attribute), and the `kind`s of its inline
constraints in order. -/
structure ColumnDef where
  this : NameExpr
  kind : Option DataType
  constraints : List ConstraintKind
deriving DecidableEq, Repr

/-- A `sqlglot` `exp.ForeignKey` (table-level `FOREIGN KEY` clause): the local
column identifiers (`expressions`) and the result of
`fk_exp.find(exp.Reference)`. -/
structure ForeignKeyNode where
  expressions : List Identifier
  reference : Option ReferenceNode
deriving DecidableEq, Repr

/-- One element of a table-level `PRIMARY KEY (…)` node's `expressions`:
`column` is the result of `ordered_exp.find(exp.Column)` (the found
`exp.Column`'s `this`), `none` when no column node is inside. -/
structure PKItem where
  column : Option NameExpr
deriving DecidableEq, Repr

/-- A `sqlglot` `exp.PrimaryKey` (table-level `PRIMARY KEY (…)` node). -/
structure PKNode where
  expressions : List PKItem
deriving DecidableEq, Repr

/-- One expression of a `CREATE TABLE` statement's schema body, in source
order: a column definition or a table-level constraint node. This carries the
tree positions that `statement.find` / `find_all` traverse in document order. -/
inductive TableElem where
  | colDef (c : ColumnDef)
  | pk (p : PKNode)
  | fk (f : ForeignKeyNode)
  | uniq (u : UniqueNode)
  | otherElem
deriving DecidableEq, Repr

/-- A parsed `CREATE TABLE` statement (a `sqlglot` `exp.Create` of kind
`TABLE`): `target` is `statement.find(exp.Table)` (the table being created,
which precedes any other `Table` node in document order), and `elements` the
schema body expressions in source order. -/
structure CreateTable where
  target : Option TableExpr
  elements : List TableElem
deriving DecidableEq, Repr

/-- A top-level parsed statement, after `sqlglot.parse`: either a
`CREATE TABLE` or any other statement (which the builder filters out). -/
inductive Stmt where
  | createTable (ct : CreateTable)
  | otherStmt
deriving DecidableEq, Repr

/-- `statement.find_all(exp.ColumnDef)`: the column definitions in order. -/
def CreateTable.columnDefs (ct : CreateTable) : List ColumnDef :=
  ct.elements.filterMap fun e =>
    match e with
    | .colDef c => some c
    | _ => none

/-- `statement.find(exp.PrimaryKey)`: the first table-level primary-key node
(inline column `PRIMARY KEY` markers are `exp.PrimaryKeyColumnConstraint`, a
different class, and are not found by this call). -/
def CreateTable.findPK (ct : CreateTable) : Option PKNode :=
  (ct.elements.filterMap fun e =>
    match e with
    | .pk p => some p
    | _ => none).head?

/-- `statement.find_all(exp.ForeignKey)`: table-level foreign-key nodes in
order (an inline `REFERENCES` is an `exp.Reference`, not an `exp.ForeignKey`). -/
def CreateTable.foreignKeys (ct : CreateTable) : List ForeignKeyNode :=
  ct.elements.filterMap fun e =>
    match e with
    | .fk f => some f
    | _ => none

/-- `statement.find_all(exp.UniqueColumnConstraint)`: every
`UniqueColumnConstraint` node anywhere in the statement tree, in document
order — this includes the `kind` node of each inline column `UNIQUE` marker
(which sits inside its `ColumnDef`) as well as the table-level `UNIQUE (…)`
nodes. -/
def CreateTable.allUniqueNodes (ct : CreateTable) : List UniqueNode :=
  ct.elements.flatMap fun e =>
    match e with
    | .colDef c =>
        c.constraints.filterMap fun k =>
          match k with
          | .unique u => some u
          | _ => none
    | .uniq u => [u]
    | _ => []

/-! ## The DDL builder: `build_catalog_from_sql` and helpers (`sql.py`) -/

/-- `_get_identifier_name` (sql.py lines 6-11): a quoted identifier keeps its
text verbatim, an unquoted identifier is lower-cased. -/
def _get_identifier_name (identifier_exp : Identifier) : String :=
  if identifier_exp.quoted then identifier_exp.name
  else strLower identifier_exp.name

/-- The shared `isinstance(…, exp.Identifier)` dispatch of `_get_table_name`,
`_get_column_name` and the `db` branch of `_get_schema_name`: an `Identifier`
goes through `_get_identifier_name`, anything else through `str(…).lower()`. -/
def nameOf : NameExpr → String
  | .ident i => _get_identifier_name i
  | .raw s => strLower s

/-- `_get_table_name` (sql.py lines 13-18). -/
def _get_table_name (table_exp : TableExpr) : String :=
  nameOf table_exp.this

/-- `_get_schema_name` (sql.py lines 20-27): the `db` qualifier when present,
else the caller-supplied default schema. -/
def _get_schema_name (table_exp : TableExpr) (default_schema : String) : String :=
  match table_exp.db with
  | some d => nameOf d
  | none => default_schema

/-- `_get_column_name` (sql.py lines 29-34); also applied to the `exp.Column`
nodes found under a table-level `PRIMARY KEY` node. -/
def _get_column_name (column_exp : ColumnDef) : String :=
  nameOf column_exp.this

/-- `_extract_datatype` (sql.py lines 36-58), including the assert that
`column_exp.kind` is a `DataType`. Precision/scale literals are interpreted
only for `DECIMAL`, `NUMERIC`, `NUMBER`, `FLOAT`; the first argument, when an
integer literal, gives the precision; the second gives the scale only when the
argument list has length exactly 2. -/
def _extract_datatype (column_exp : ColumnDef) :
    Except String (String × Option Int × Option Int) :=
  match column_exp.kind with
  | none => .error "Expected DataType expression in ColumnDef"
  | some datatype_exp =>
      let datatype := datatype_exp.thisValue
      let isNumericKw : Prop :=
        datatype = "DECIMAL" ∨ datatype = "NUMERIC" ∨
        datatype = "NUMBER" ∨ datatype = "FLOAT"
      let numeric_precision : Option Int :=
        if datatype_exp.expressions ≠ [] ∧ isNumericKw ∧
            1 ≤ datatype_exp.expressions.length then
          match datatype_exp.expressions[0]? with
          | some (TypeArg.intLit n) => some n
          | _ => none
        else none
      let numeric_scale : Option Int :=
        if datatype_exp.expressions ≠ [] ∧ isNumericKw ∧
            datatype_exp.expressions.length = 2 then
          match datatype_exp.expressions[1]? with
          | some (TypeArg.intLit n) => some n
          | _ => none
        else none
      .ok (datatype, numeric_precision, numeric_scale)

/-- A resolved foreign-key target `(schema, table, column)`, the value type of
the `fks` dict. -/
structure FkRef where
  schema_name : String
  table_name : String
  column_name : String
deriving DecidableEq, Repr

/-- Python `dict` assignment `fks[k] = v`: overwrite the existing entry in
place, append when the key is new. -/
def dictInsert (d : List (String × FkRef)) (k : String) (v : FkRef) :
    List (String × FkRef) :=
  if d.any (fun p => p.1 = k) then
    d.map (fun p => if p.1 = k then (k, v) else p)
  else d ++ [(k, v)]

/-- Python `dict` lookup, used for both `column_name in fks` and
`fks[column_name]`. -/
def dictGet (d : List (String × FkRef)) (k : String) : Option FkRef :=
  (d.find? (fun p => p.1 = k)).map (fun p => p.2)

/-- The `(local column, target)` pairs contributed by one table-level
`FOREIGN KEY` clause (sql.py lines 103-124): positional zip of the local
column list with the referenced column list, after the asserts on the
`Reference`/`Schema`/`Table` structure. -/
def fkClausePairs (search_path : String) (fk_exp : ForeignKeyNode) :
    Except String (List (String × FkRef)) :=
  let fk_column_names := fk_exp.expressions.map _get_identifier_name
  match fk_exp.reference with
  | none => .error "Expected Reference expression in Foreign Key definition"
  | some ref_exp =>
      match ref_exp.this with
      | none => .error "Expected Schema expression in Foreign Key reference"
      | some ref_schema_exp =>
          match ref_schema_exp.this with
          | none => .error "Expected Table expression in Foreign Key reference"
          | some ref_table_exp =>
              let ref_schema_name := _get_schema_name ref_table_exp search_path
              let ref_table_name := _get_table_name ref_table_exp
              let ref_column_names :=
                ref_schema_exp.expressions.map _get_identifier_name
              .ok ((fk_column_names.zip ref_column_names).map
                (fun p => (p.1, ⟨ref_schema_name, ref_table_name, p.2⟩)))

/-- The pre-scan loop over table-level `FOREIGN KEY` clauses (sql.py lines
102-124), filling the `fks` dict clause by clause. -/
def fkLoop (search_path : String) (fks : List (String × FkRef)) :
    List ForeignKeyNode → Except String (List (String × FkRef))
  | [] => .ok fks
  | fk_exp :: rest =>
      match fkClausePairs search_path fk_exp with
      | .error e => .error e
      | .ok pairs =>
          fkLoop search_path (pairs.foldl (fun d p => dictInsert d p.1 p.2) fks) rest

/-- The result of processing one column definition: the emitted `Column`
record plus the inline `PRIMARY KEY` / `UNIQUE` marker flags. -/
structure ColResult where
  col : Column
  is_pk : Bool
  is_unique : Bool
deriving DecidableEq, Repr

/-- `isinstance(c.kind, exp.PrimaryKeyColumnConstraint)`. -/
def isPrimaryKeyKind : ConstraintKind → Bool
  | .primaryKey => true
  | _ => false

/-- `isinstance(c.kind, exp.UniqueColumnConstraint)`. -/
def isUniqueKind : ConstraintKind → Bool
  | .unique _ => true
  | _ => false

/-- `isinstance(c.kind, exp.NotNullColumnConstraint)`. -/
def isNotNullKind : ConstraintKind → Bool
  | .notNull => true
  | _ => false

/-- `next((c for c in column_exp.constraints if isinstance(c.kind,
exp.Reference)), None)`: the first inline `REFERENCES` constraint. -/
def findReference : List ConstraintKind → Option ReferenceNode
  | [] => none
  | .reference r :: _ => some r
  | _ :: rest => findReference rest

/-- The body of the per-column loop (sql.py lines 127-182): marker detection,
foreign-key resolution (inline `REFERENCES` preferred, then the pre-scanned
`fks` dict, then absent), datatype extraction, and the emitted `Column`. -/
def processColumn (search_path : String) (fks : List (String × FkRef))
    (column_exp : ColumnDef) : Except String ColResult :=
  let column_name := _get_column_name column_exp
  let is_pk := column_exp.constraints.any isPrimaryKeyKind
  let is_unique := column_exp.constraints.any isUniqueKind
  let is_not_null := column_exp.constraints.any isNotNullKind
  let fkFields : Except String (Option String × Option String × Option String) :=
    match findReference column_exp.constraints with
    | some fk_reference =>
        match fk_reference.this with
        | none => .error "Expected Schema expression in Foreign Key constraint"
        | some fk_schema_exp =>
            match fk_schema_exp.this with
            | none => .error "Expected Table expression in Foreign Key constraint"
            | some fk_table_exp =>
                match fk_schema_exp.expressions[0]? with
                | none => .error "IndexError: list index out of range"
                | some fk_column_exp =>
                    .ok (some (_get_schema_name fk_table_exp search_path),
                         some (_get_table_name fk_table_exp),
                         some (_get_identifier_name fk_column_exp))
    | none =>
        match dictGet fks column_name with
        | some r => .ok (some r.schema_name, some r.table_name, some r.column_name)
        | none => .ok (none, none, none)
  match fkFields with
  | .error e => .error e
  | .ok (fk_schema_name, fk_table_name, fk_column_name) =>
      match _extract_datatype column_exp with
      | .error e => .error e
      | .ok (column_type, numeric_precision, numeric_scale) =>
          .ok ⟨⟨column_name, column_type, numeric_precision, numeric_scale,
                !is_not_null, fk_schema_name, fk_table_name, fk_column_name⟩,
               is_pk, is_unique⟩

/-- The per-column loop (sql.py lines 126-182): threads the accumulated
primary-key name set, the inline unique singleton sets (in declaration order)
and the emitted `add_column` operations. -/
def columnsLoop (search_path schema_name table_name : String)
    (fks : List (String × FkRef)) :
    List ColumnDef → List String → List (List String) → List Op →
    Except String (List String × List (List String) × List Op)
  | [], pk_col_names, unique_col_names, ops =>
      .ok (pk_col_names, unique_col_names, ops)
  | column_exp :: rest, pk_col_names, unique_col_names, ops =>
      match processColumn search_path fks column_exp with
      | .error e => .error e
      | .ok r =>
          let column_name := _get_column_name column_exp
          let pk_col_names :=
            if r.is_pk then pySetAdd pk_col_names column_name else pk_col_names
          let unique_col_names :=
            if r.is_unique then unique_col_names ++ [[column_name]]
            else unique_col_names
          columnsLoop search_path schema_name table_name fks rest pk_col_names
            unique_col_names (ops ++ [Op.addColumn schema_name table_name r.col])

/-- The table-level `PRIMARY KEY (…)` fold (sql.py lines 185-190): each item
must contain a column node, whose name is added to the accumulated set. -/
def pkLoop : List PKItem → List String → Except String (List String)
  | [], pk_col_names => .ok pk_col_names
  | item :: rest, pk_col_names =>
      match item.column with
      | none => .error "Expected Column expression in Primary Key definition"
      | some col => pkLoop rest (pySetAdd pk_col_names (nameOf col))

/-- The loop over every `UniqueColumnConstraint` node found in the statement
(sql.py lines 193-201): asserts each node's `this` is a `Schema`, then
collects names from the node's own `expressions` attribute (note: the source
reads `unique_exp.expressions`, not `unique_schema_exp.expressions`). -/
def uniqueLoop : List UniqueNode → List (List String) →
    Except String (List (List String))
  | [], unique_col_names => .ok unique_col_names
  | unique_exp :: rest, unique_col_names =>
      match unique_exp.this with
      | none => .error "Expected Schema expression in Unique constraint"
      | some _ =>
          let unique_column_names : List String :=
            pySetOf (unique_exp.expressions.map _get_identifier_name)
          uniqueLoop rest (unique_col_names ++ [unique_column_names])

/-- Processing of one `CREATE TABLE` statement (sql.py lines 70-217), as the
ordered sequence of catalog mutations it performs. Python mutates the catalog
in place and an assert failure aborts the whole call, so a caller observes
either the complete mutation sequence or an error. -/
def processStatement (search_path : String) (statement : CreateTable) :
    Except String (List Op) :=
  match statement.target with
  | none => .error "Expected Table expression in CREATE TABLE statement"
  | some table_exp =>
      let table_name := _get_table_name table_exp
      let schema_name := _get_schema_name table_exp search_path
      match fkLoop search_path [] statement.foreignKeys with
      | .error e => .error e
      | .ok fks =>
          match columnsLoop search_path schema_name table_name fks
              statement.columnDefs [] [] [] with
          | .error e => .error e
          | .ok (pk1, uq1, colOps) =>
              let pkRes : Except String (List String) :=
                match statement.findPK with
                | some pk_exp => pkLoop pk_exp.expressions pk1
                | none => .ok pk1
              match pkRes with
              | .error e => .error e
              | .ok pk_col_names =>
                  match uniqueLoop statement.allUniqueNodes uq1 with
                  | .error e => .error e
                  | .ok unique_col_names =>
                      if pk_col_names = [] then
                        .error "Primary Key columns should have been identified"
                      else
                        .ok (colOps ++
                          Op.addConstraint schema_name table_name
                            ⟨pk_col_names, .PRIMARY_KEY⟩ ::
                          unique_col_names.map (fun s =>
                            Op.addConstraint schema_name table_name ⟨s, .UNIQUE⟩))

/-- The statement loop of `build_catalog_from_sql` (sql.py lines 70, 66):
statements that are not `CREATE TABLE` are filtered out silently; the
per-statement mutation sequences are concatenated in order. -/
def buildOps (search_path : String) : List Stmt → Except String (List Op)
  | [] => .ok []
  | .createTable ct :: rest =>
      match processStatement search_path ct with
      | .error e => .error e
      | .ok ops =>
          match buildOps search_path rest with
          | .error e => .error e
          | .ok more => .ok (ops ++ more)
  | .otherStmt :: rest => buildOps search_path rest

/-- `build_catalog_from_sql` (sql.py lines 60-219), from the point where the
external parser (`sqlglot.parse`) has produced the statement list. A Python
`AssertionError` or `IndexError` is embedded as `Except.error`; on error no
catalog value is produced at all. -/
def build_catalog_from_sql (statements : List Stmt) (search_path : String) :
    Except String Catalog :=
  match buildOps search_path statements with
  | .error e => .error e
  | .ok ops => .ok (applyOps ⟨[]⟩ ops)

/-- Decidable equality for `Except`, so that concrete runs of the embedded
builder can be checked by `decide`. -/
instance {ε α : Type} [DecidableEq ε] [DecidableEq α] : DecidableEq (Except ε α) :=
  fun x y =>
    match x, y with
    | .error a, .error b =>
        match decEq a b with
        | isTrue h => isTrue (by rw [h])
        | isFalse h => isFalse (by intro hh; cases hh; exact h rfl)
    | .error _, .ok _ => isFalse (by intro h; cases h)
    | .ok _, .error _ => isFalse (by intro h; cases h)
    | .ok a, .ok b =>
        match decEq a b with
        | isTrue h => isTrue (by rw [h])
        | isFalse h => isFalse (by intro hh; cases hh; exact h rfl)

/-! ## The query structural extractor: `extract_subqueries_tokens`
(`extractors.py` lines 69-123) -/

mutual
/-- A `sqlparse` token, at the interface `extract_subqueries_tokens` consumes:
leaves carry their `ttype` classification with the normalized text where the
walk reads it; groups carry their sub-tokens. For a `Parenthesis` group,
`value` is the raw source text of the group (with the parenthesis markers) and
`toks` the tokens between the markers (the two punctuation leaves are covered
by `simple`: no clause update, not a group, so they are inert in the walk);
re-parsing the stripped inner text with `sqlparse.parse` yields a statement
with those same tokens — this is how the tokenizer's round-trip contract is
embedded, and the walk after a re-parse therefore continues on `toks`. -/
inductive Tok where
  | ws
  | keyword (value : String)
  | dml (value : String)
  | cmpOp
  | simple
  | identGroup (value : String) (toks : TokList)
  | paren (value : String) (toks : TokList)
  | group (toks : TokList)
deriving DecidableEq

/-- A list of `sqlparse` tokens (the `tokens` attribute of a group or
statement), as a mutual inductive so that the walk is structurally
recursive. -/
inductive TokList where
  | nil
  | cons (t : Tok) (rest : TokList)
deriving DecidableEq
end

mutual
/-- `token.flatten()` on one token: its leaf tokens, depth-first. -/
def flattenTok : Tok → List Tok
  | .identGroup _ ts => flattenList ts
  | .paren _ ts => flattenList ts
  | .group ts => flattenList ts
  | t => [t]

/-- `flatten` over a token list. -/
def flattenList : TokList → List Tok
  | .nil => []
  | .cons t rest => flattenTok t ++ flattenList rest
end

/-- `_has_select_inside` (lines 80-84): some flattened leaf is a `DML` token
whose normalized text is exactly `SELECT`. -/
def _has_select_inside (toks : TokList) : Bool :=
  (flattenList toks).any fun t =>
    match t with
    | .dml v => v == "SELECT"
    | _ => false

/-- `_inner_text_once` (lines 86-90): strip surrounding whitespace, then the
outer parenthesis markers when present, then inner whitespace. -/
def _inner_text_once (value : String) : String :=
  let v := pyStrip value
  if pyStartsWith v "(" && pyEndsWith v ")" then pyStrip ((v.drop 1).dropRight 1)
  else v

/-- The clause-context update performed for one token at the top of the loop
body (lines 98-104): any keyword or DML token sets the clause to its
upper-cased normalized text; an `Identifier` group whose value is `ALL` or
`ANY` sets it to `ALL/ANY`; a comparison-operator leaf sets it to
`COMPARISON`; every other token leaves it unchanged. -/
def updateClause (t : Tok) (current_clause : Option String) : Option String :=
  match t with
  | .keyword v => some (strUpper v)
  | .dml v => some (strUpper v)
  | .identGroup v _ =>
      if strUpper v = "ALL" ∨ strUpper v = "ANY" then some "ALL/ANY"
      else current_clause
  | .cmpOp => some "COMPARISON"
  | _ => current_clause

/-- The recursive `_walk` (lines 92-118) over a token list, threading
`current_clause` and `depth` and returning the recorded
`(subquery_text, clause, depth)` tuples in order. A `Parenthesis` group with a
`SELECT` inside is recorded as `(inner text, clause or UNKNOWN, depth+1)` and
its inner tokens are re-walked with the clause reset and the depth
incremented; any other group is descended into at the same clause and depth;
whitespace is skipped. -/
def walkList : TokList → Option String → Nat → List (String × String × Nat)
  | .nil, _, _ => []
  | .cons (.paren v toks) rest, current_clause, depth =>
      let c1 := updateClause (.paren v toks) current_clause
      (if _has_select_inside toks then
        (_inner_text_once v, c1.getD "UNKNOWN", depth + 1) ::
          walkList toks none (depth + 1)
      else
        walkList toks c1 depth) ++ walkList rest c1 depth
  | .cons (.identGroup v toks) rest, current_clause, depth =>
      let c1 := updateClause (.identGroup v toks) current_clause
      walkList toks c1 depth ++ walkList rest c1 depth
  | .cons (.group toks) rest, current_clause, depth =>
      let c1 := updateClause (.group toks) current_clause
      walkList toks c1 depth ++ walkList rest c1 depth
  | .cons t rest, current_clause, depth =>
      walkList rest (updateClause t current_clause) depth

/-- `extract_subqueries_tokens` (lines 69-123), from the point where
`sqlparse.parse` has produced the statement token lists: each statement is
walked with no clause context at depth 0, appending to one shared result
list. -/
def extract_subqueries_tokens (parsed : List TokList) :
    List (String × String × Nat) :=
  parsed.flatMap fun stmt => walkList stmt none 0

/-! ## `remove_ctes` (`extractors.py` lines 45-54) -/

/-- A `sqlglot` expression at the granularity `remove_ctes` reads it: the
optional `WITH …` attachment (`args` key `with`, cleared by
`ast.set('with', None)`) and the rendering of the main query. -/
structure QueryAst where
  withText : Option String
  mainText : String
deriving DecidableEq, Repr

/-- `ast.sql()`: render the query text; the `WITH` clause is included exactly
when the attachment is present. -/
def QueryAst.sql (a : QueryAst) : String :=
  match a.withText with
  | some w => "WITH " ++ w ++ " " ++ a.mainText
  | none => a.mainText

/-- `ast.set('with', None)` as a value transformation. -/
def clearWith (a : QueryAst) : QueryAst := ⟨none, a.mainText⟩

/-- The Python heap fragment holding the AST objects visible to `remove_ctes`:
object references are indices into the store, so in-place mutation and the
deep copy are observable. -/
structure Store where
  objs : List QueryAst
deriving DecidableEq, Repr

/-- `copy.deepcopy(ast)`: allocate a fresh object holding the same tree value
and return its reference. -/
def deepcopy (s : Store) (a : QueryAst) : Store × Nat :=
  (⟨s.objs ++ [a]⟩, s.objs.length)

/-- In-place mutation of the object at reference `r`. -/
def storeSet (s : Store) (r : Nat) (f : QueryAst → QueryAst) : Store :=
  match s.objs[r]? with
  | some a => ⟨s.objs.set r (f a)⟩
  | none => s

/-- `remove_ctes` (lines 45-54) with the object heap explicit: for an absent
tree return the empty string; otherwise deep-copy the referenced tree, clear
the copy's `with` attachment in place, and render the copy. Returns the
produced string together with the resulting heap. -/
def remove_ctes (s : Store) (ast : Option Nat) : String × Store :=
  match ast with
  | none => ("", s)
  | some r =>
      let a := (s.objs[r]?).getD ⟨none, ""⟩
      let copied := deepcopy s a
      let s2 := storeSet copied.1 copied.2 clearWith
      (((s2.objs[copied.2]?).getD ⟨none, ""⟩).sql, s2)

/-! ## Derived notions used in statements of properties -/

/-- The set of column names carrying an inline `PRIMARY KEY` marker, as
accumulated name-by-name by the per-column loop. -/
def inlinePkNames (cols : List ColumnDef) : Finset String :=
  ((cols.filter fun c => c.constraints.any isPrimaryKeyKind).map _get_column_name).toFinset

/-- The set of column names listed in a table-level `PRIMARY KEY (…)` node:
the names of the column nodes found in its items. -/
def tablePkNames (items : List PKItem) : Finset String :=
  ((items.filterMap PKItem.column).map nameOf).toFinset

/-- Whether an operation adds a `PRIMARY_KEY` constraint. -/
def Op.isPkConstraint : Op → Bool
  | .addConstraint _ _ c => c.constraint_type = ConstraintType.PRIMARY_KEY
  | _ => false

/-- Whether an operation is an `add_column` call. -/
def Op.isAddColumn : Op → Bool
  | .addColumn _ _ _ => true
  | _ => false

/-- The value paired with the last occurrence of key `k` in a pair list: what
`k` maps to after the pairs are written into a Python dict in order. -/
def lastVal (pairs : List (String × FkRef)) (k : String) : Option FkRef :=
  ((pairs.filter fun p => p.1 = k).getLast?).map fun p => p.2

/-! ## Concrete inputs used by witnesses and counterexamples -/

/-- `CREATE TABLE t (a INT PRIMARY KEY, b INT, c INT, PRIMARY KEY (b, c))`:
a primary key declared both inline and via a table-level node. -/
def exPkMerge : CreateTable :=
  ⟨some ⟨.ident ⟨"t", false⟩, none⟩,
   [.colDef ⟨.ident ⟨"a", false⟩, some ⟨"INT", []⟩, [.primaryKey]⟩,
    .colDef ⟨.ident ⟨"b", false⟩, some ⟨"INT", []⟩, []⟩,
    .colDef ⟨.ident ⟨"c", false⟩, some ⟨"INT", []⟩, []⟩,
    .pk ⟨[⟨some (.ident ⟨"b", false⟩)⟩, ⟨some (.ident ⟨"c", false⟩)⟩]⟩]⟩

/-- The mutation sequence emitted for `exPkMerge`. -/
def exPkMergeOps : List Op :=
  [.addColumn "public" "t" ⟨"a", "INT", none, none, true, none, none, none⟩,
   .addColumn "public" "t" ⟨"b", "INT", none, none, true, none, none, none⟩,
   .addColumn "public" "t" ⟨"c", "INT", none, none, true, none, none, none⟩,
   .addConstraint "public" "t" ⟨["a", "b", "c"], .PRIMARY_KEY⟩]

/-- `CREATE TABLE ok_t (x INT PRIMARY KEY)`: a well-formed statement used as
the earlier, successfully processed statement of a multi-statement input. -/
def exGoodStmt : CreateTable :=
  ⟨some ⟨.ident ⟨"ok_t", false⟩, none⟩,
   [.colDef ⟨.ident ⟨"x", false⟩, some ⟨"INT", []⟩, [.primaryKey]⟩]⟩

/-- `CREATE TABLE t (a INT)`: no primary key, inline or table-level. -/
def exNoPk : CreateTable :=
  ⟨some ⟨.ident ⟨"t", false⟩, none⟩,
   [.colDef ⟨.ident ⟨"a", false⟩, some ⟨"INT", []⟩, []⟩]⟩

/-- `CREATE TABLE t (a INT PRIMARY KEY, b INT UNIQUE)`: an inline column
`UNIQUE` marker; as produced by the parser, the marker's
`UniqueColumnConstraint` node has no `this` attachment (there is no
parenthesized column list to parse into a `Schema`). -/
def exInlineUnique : CreateTable :=
  ⟨some ⟨.ident ⟨"t", false⟩, none⟩,
   [.colDef ⟨.ident ⟨"a", false⟩, some ⟨"INT", []⟩, [.primaryKey]⟩,
    .colDef ⟨.ident ⟨"b", false⟩, some ⟨"INT", []⟩, [.unique ⟨none, []⟩]⟩]⟩

/-- `CREATE TABLE Users (Id INT PRIMARY KEY)`, identifiers unquoted. -/
def exUnquoted : CreateTable :=
  ⟨some ⟨.ident ⟨"Users", false⟩, none⟩,
   [.colDef ⟨.ident ⟨"Id", false⟩, some ⟨"INT", []⟩, [.primaryKey]⟩]⟩

/-- `CREATE TABLE "Users" ("Id" INT PRIMARY KEY)`, identifiers quoted. -/
def exQuoted : CreateTable :=
  ⟨some ⟨.ident ⟨"Users", true⟩, none⟩,
   [.colDef ⟨.ident ⟨"Id", true⟩, some ⟨"INT", []⟩, [.primaryKey]⟩]⟩

/-- A column typed `DECIMAL(10, 2, 3)`: three type arguments, all integer
literals. -/
def exDecimalThreeArgs : ColumnDef :=
  ⟨.ident ⟨"x", false⟩, some ⟨"DECIMAL", [.intLit 10, .intLit 2, .intLit 3]⟩, []⟩

/-- An inline `REFERENCES other(x)` constraint node. -/
def exInlineRef : ReferenceNode :=
  ⟨some ⟨some ⟨.ident ⟨"other", false⟩, none⟩, [⟨"x", false⟩]⟩⟩

/-- A column `id INT REFERENCES other(x)`. -/
def exFkColumn : ColumnDef :=
  ⟨.ident ⟨"id", false⟩, some ⟨"INT", []⟩, [.reference exInlineRef]⟩

/-- A pre-scanned table-level mapping sending `id` to `other2(y)` — the
competing table-level `FOREIGN KEY` entry of the precedence scenario. -/
def exFksDict : List (String × FkRef) :=
  [("id", ⟨"public", "other2", "y"⟩)]

/-- `FOREIGN KEY (id) REFERENCES other2 (y)`: a table-level clause. -/
def exFkClause1 : ForeignKeyNode :=
  ⟨[⟨"id", false⟩], some ⟨some ⟨some ⟨.ident ⟨"other2", false⟩, none⟩, [⟨"y", false⟩]⟩⟩⟩

/-- `FOREIGN KEY (id) REFERENCES other3 (z)`: a second table-level clause for
the same local column, appearing later in the statement. -/
def exFkClause2 : ForeignKeyNode :=
  ⟨[⟨"id", false⟩], some ⟨some ⟨some ⟨.ident ⟨"other3", false⟩, none⟩, [⟨"z", false⟩]⟩⟩⟩

/-- A column `id INT` with no inline constraints. -/
def exPlainColumn : ColumnDef :=
  ⟨.ident ⟨"id", false⟩, some ⟨"INT", []⟩, []⟩

/-- Build a `TokList` from a `List Tok`. -/
def tokListOf (l : List Tok) : TokList := l.foldr .cons .nil

/-- The token tree of `(SELECT y FROM v)` as grouped by the tokenizer. -/
def exInnerParen : Tok :=
  .paren "(SELECT y FROM v)"
    (tokListOf [.dml "SELECT", .ws, .identGroup "y" (tokListOf [.simple]), .ws,
                .keyword "FROM", .ws, .identGroup "v" (tokListOf [.simple])])

/-- The token tree of `(SELECT id FROM u WHERE x IN (SELECT y FROM v))`. -/
def exOuterParen : Tok :=
  .paren "(SELECT id FROM u WHERE x IN (SELECT y FROM v))"
    (tokListOf [.dml "SELECT", .ws, .identGroup "id" (tokListOf [.simple]), .ws,
                .keyword "FROM", .ws, .identGroup "u" (tokListOf [.simple]), .ws,
                .group (tokListOf [.keyword "WHERE", .ws,
                                   .identGroup "x" (tokListOf [.simple]), .ws,
                                   .keyword "IN", .ws, exInnerParen])])

/-- The token tree of
`SELECT * FROM t WHERE id IN (SELECT id FROM u WHERE x IN (SELECT y FROM v))`:
the statement from the spec's subquery-depth scenario, with the `WHERE …`
region grouped as the tokenizer groups it. -/
def exSubqueryStmt : TokList :=
  tokListOf [.dml "SELECT", .ws, .simple, .ws, .keyword "FROM", .ws,
             .identGroup "t" (tokListOf [.simple]), .ws,
             .group (tokListOf [.keyword "WHERE", .ws,
                                .identGroup "id" (tokListOf [.simple]), .ws,
                                .keyword "IN", .ws, exOuterParen])]

/-- The tokens of `SELECT 1`, inside a parenthesized group `( SELECT 1 )`. -/
def exSelTokens : TokList := tokListOf [.dml "SELECT", .ws, .simple]

/-- The tokens of `1, 2` — a parenthesized list with no `SELECT` inside. -/
def exListTokens : TokList := tokListOf [.simple, .simple, .simple]

/-- A one-object heap whose object is `WITH x AS (SELECT 1) SELECT * FROM x`. -/
def exCteStore : Store := ⟨[⟨some "x AS (SELECT 1)", "SELECT * FROM x"⟩]⟩

/-! ## Helper lemmas -/

theorem pySetAdd_toFinset (l : List String) (x : String) :
    (pySetAdd l x).toFinset = insert x l.toFinset := by
  unfold pySetAdd
  split
  · next h => ext y; simp; intro hy; rw [hy]; exact h
  · ext y; simp; tauto

theorem processColumn_inv (sp : String) (fks : List (String × FkRef))
    (c : ColumnDef) (r : ColResult) (h : processColumn sp fks c = .ok r) :
    ∃ fs ft fc ty p sc,
      _extract_datatype c = .ok (ty, p, sc) ∧
      r = ⟨⟨_get_column_name c, ty, p, sc, !c.constraints.any isNotNullKind,
            fs, ft, fc⟩,
           c.constraints.any isPrimaryKeyKind, c.constraints.any isUniqueKind⟩ := by
  unfold processColumn at h
  cases hdt : _extract_datatype c with
  | error e =>
      simp only [hdt] at h
      split at h <;> simp_all
  | ok v =>
      obtain ⟨ty, p, sc⟩ := v
      simp only [hdt] at h
      split at h
      · simp_all
      · cases h
        exact ⟨_, _, _, ty, p, sc, rfl, rfl⟩

theorem processColumn_fk_inline (sp : String) (fks : List (String × FkRef))
    (c : ColumnDef) (r : ColResult) (ref : ReferenceNode) (sn : SchemaExpr)
    (te : TableExpr) (c0 : Identifier)
    (hfr : findReference c.constraints = some ref)
    (hsn : ref.this = some sn) (hte : sn.this = some te)
    (hc0 : sn.expressions[0]? = some c0)
    (h : processColumn sp fks c = .ok r) :
    r.col.fk_schema = some (_get_schema_name te sp) ∧
    r.col.fk_table = some (_get_table_name te) ∧
    r.col.fk_column = some (_get_identifier_name c0) := by
  unfold processColumn at h
  simp only [hfr, hsn, hte, hc0] at h
  cases hdt : _extract_datatype c with
  | error e => simp only [hdt] at h; exact Except.noConfusion h
  | ok v =>
      obtain ⟨ty, p, sc⟩ := v
      simp only [hdt] at h
      cases h
      exact ⟨rfl, rfl, rfl⟩

theorem processColumn_fk_dict (sp : String) (fks : List (String × FkRef))
    (c : ColumnDef) (r : ColResult) (v : FkRef)
    (hfr : findReference c.constraints = none)
    (hd : dictGet fks (_get_column_name c) = some v)
    (h : processColumn sp fks c = .ok r) :
    r.col.fk_schema = some v.schema_name ∧
    r.col.fk_table = some v.table_name ∧
    r.col.fk_column = some v.column_name := by
  unfold processColumn at h
  simp only [hfr, hd] at h
  cases hdt : _extract_datatype c with
  | error e => simp only [hdt] at h; exact Except.noConfusion h
  | ok w =>
      obtain ⟨ty, p, sc⟩ := w
      simp only [hdt] at h
      cases h
      exact ⟨rfl, rfl, rfl⟩

theorem processColumn_fk_none (sp : String) (fks : List (String × FkRef))
    (c : ColumnDef) (r : ColResult)
    (hfr : findReference c.constraints = none)
    (hd : dictGet fks (_get_column_name c) = none)
    (h : processColumn sp fks c = .ok r) :
    r.col.fk_schema = none ∧ r.col.fk_table = none ∧ r.col.fk_column = none := by
  unfold processColumn at h
  simp only [hfr, hd] at h
  cases hdt : _extract_datatype c with
  | error e => simp only [hdt] at h; exact Except.noConfusion h
  | ok w =>
      obtain ⟨ty, p, sc⟩ := w
      simp only [hdt] at h
      cases h
      exact ⟨rfl, rfl, rfl⟩

theorem columnsLoop_ok_pk (sp sch tbl : String) (fks : List (String × FkRef))
    (cols : List ColumnDef) (pks pks' : List String)
    (uqs uqs' : List (List String)) (ops ops' : List Op)
    (h : columnsLoop sp sch tbl fks cols pks uqs ops = .ok (pks', uqs', ops')) :
    pks'.toFinset = pks.toFinset ∪ inlinePkNames cols := by
  induction cols generalizing pks uqs ops with
  | nil =>
      unfold columnsLoop at h
      cases h
      simp [inlinePkNames]
  | cons c rest ih =>
      unfold columnsLoop at h
      cases hpc : processColumn sp fks c with
      | error e => simp only [hpc] at h; exact Except.noConfusion h
      | ok r =>
          simp only [hpc] at h
          obtain ⟨fs, ft, fc, ty, p, sc, hdt, hr⟩ := processColumn_inv sp fks c r hpc
          subst hr
          have hrec := ih _ _ _ h
          rw [hrec]
          by_cases hpk : c.constraints.any isPrimaryKeyKind = true
          · rw [if_pos hpk, pySetAdd_toFinset]
            have hstep : inlinePkNames (c :: rest) =
                insert (_get_column_name c) (inlinePkNames rest) := by
              unfold inlinePkNames
              simp [List.filter_cons, hpk]
            rw [hstep, Finset.insert_union, ← Finset.union_insert]
          · rw [if_neg hpk]
            have hb : c.constraints.any isPrimaryKeyKind = false := by
              simpa using hpk
            have hstep : inlinePkNames (c :: rest) = inlinePkNames rest := by
              unfold inlinePkNames
              simp [List.filter_cons, hb]
            rw [hstep]

theorem columnsLoop_ok_ops (sp sch tbl : String) (fks : List (String × FkRef))
    (cols : List ColumnDef) (pks pks' : List String)
    (uqs uqs' : List (List String)) (ops ops' : List Op)
    (h : columnsLoop sp sch tbl fks cols pks uqs ops = .ok (pks', uqs', ops')) :
    ∃ newOps, ops' = ops ++ newOps ∧
      ∀ op ∈ newOps, ∃ col, op = Op.addColumn sch tbl col := by
  induction cols generalizing pks uqs ops with
  | nil =>
      unfold columnsLoop at h
      cases h
      exact ⟨[], by simp, by simp⟩
  | cons c rest ih =>
      unfold columnsLoop at h
      cases hpc : processColumn sp fks c with
      | error e => simp only [hpc] at h; exact Except.noConfusion h
      | ok r =>
          simp only [hpc] at h
          obtain ⟨newOps, heq, hall⟩ := ih _ _ _ h
          refine ⟨Op.addColumn sch tbl r.col :: newOps, by simp [heq], ?_⟩
          intro op hop
          rcases List.mem_cons.mp hop with rfl | hop
          · exact ⟨r.col, rfl⟩
          · exact hall op hop

theorem pkLoop_ok (items : List PKItem) (pks pks' : List String)
    (h : pkLoop items pks = .ok pks') :
    pks'.toFinset = pks.toFinset ∪ tablePkNames items := by
  induction items generalizing pks with
  | nil =>
      unfold pkLoop at h
      cases h
      simp [tablePkNames]
  | cons item rest ih =>
      unfold pkLoop at h
      cases hc : item.column with
      | none => simp only [hc] at h; exact Except.noConfusion h
      | some col =>
          simp only [hc] at h
          have hrec := ih _ h
          rw [hrec, pySetAdd_toFinset]
          have hstep : tablePkNames (item :: rest) =
              insert (nameOf col) (tablePkNames rest) := by
            unfold tablePkNames
            simp [List.filterMap_cons, hc]
          rw [hstep, Finset.insert_union, ← Finset.union_insert]

theorem processStatement_ok_shape (sp : String) (ct : CreateTable)
    (te : TableExpr) (pknode : PKNode) (ops : List Op)
    (htarget : ct.target = some te) (hpk : ct.findPK = some pknode)
    (h : processStatement sp ct = .ok ops) :
    ∃ (colOps : List Op) (pkCols : List String) (uniqSets : List (List String)),
      ops = colOps ++
        Op.addConstraint (_get_schema_name te sp) (_get_table_name te)
          ⟨pkCols, .PRIMARY_KEY⟩ ::
        uniqSets.map (fun s0 =>
          Op.addConstraint (_get_schema_name te sp) (_get_table_name te)
            ⟨s0, .UNIQUE⟩) ∧
      pkCols.toFinset = inlinePkNames ct.columnDefs ∪ tablePkNames pknode.expressions ∧
      ∀ op ∈ colOps, ∃ col,
        op = Op.addColumn (_get_schema_name te sp) (_get_table_name te) col := by
  unfold processStatement at h
  simp only [htarget, hpk] at h
  cases hfk : fkLoop sp [] ct.foreignKeys with
  | error e => simp only [hfk] at h; exact Except.noConfusion h
  | ok fks =>
      simp only [hfk] at h
      cases hcl : columnsLoop sp (_get_schema_name te sp) (_get_table_name te)
          fks ct.columnDefs [] [] [] with
      | error e => simp only [hcl] at h; exact Except.noConfusion h
      | ok triple =>
          obtain ⟨pk1, uq1, colOps⟩ := triple
          simp only [hcl] at h
          cases hpkl : pkLoop pknode.expressions pk1 with
          | error e => simp only [hpkl] at h; exact Except.noConfusion h
          | ok pk2 =>
              simp only [hpkl] at h
              cases hul : uniqueLoop ct.allUniqueNodes uq1 with
              | error e => simp only [hul] at h; exact Except.noConfusion h
              | ok uqs2 =>
                  simp only [hul] at h
                  split at h
                  · exact Except.noConfusion h
                  · cases h
                    refine ⟨colOps, pk2, uqs2, rfl, ?_, ?_⟩
                    · have h1 := columnsLoop_ok_pk sp (_get_schema_name te sp)
                        (_get_table_name te) fks ct.columnDefs [] pk1 [] uq1 [] colOps hcl
                      have h2 := pkLoop_ok pknode.expressions pk1 pk2 hpkl
                      rw [h2, h1]
                      simp
                    · have h3 := columnsLoop_ok_ops sp (_get_schema_name te sp)
                        (_get_table_name te) fks ct.columnDefs [] pk1 [] uq1 [] colOps hcl
                      obtain ⟨newOps, heq, hall⟩ := h3
                      intro op hop
                      exact hall op (by simpa [heq] using hop)

/-- **C1.** For every `CREATE TABLE` statement whose primary key is declared
both inline on columns and via a table-level `PRIMARY KEY` node, the mutation
sequence the builder emits for it holds exactly one `PRIMARY_KEY` constraint;
its column set equals the union of the inline-marked column names and the
column names listed in the table-level node; and it is emitted only after
every column of the table (every `add_column` operation precedes it, and no
`add_column` follows it). The constraint container of the Catalog data model
is append-only, so the resulting table holds exactly this one `PRIMARY_KEY`
constraint. -/
theorem claim_C1_pk_merge (sp : String) (ct : CreateTable)
    (te : TableExpr) (pknode : PKNode) (ops : List Op)
    (htarget : ct.target = some te) (hpk : ct.findPK = some pknode)
    (_hinline : ∃ c ∈ ct.columnDefs, c.constraints.any isPrimaryKeyKind = true)
    (h : processStatement sp ct = .ok ops) :
    ops.countP Op.isPkConstraint = 1 ∧
    ∃ pre pkCols post,
      ops = pre ++
        Op.addConstraint (_get_schema_name te sp) (_get_table_name te)
          ⟨pkCols, .PRIMARY_KEY⟩ :: post ∧
      pkCols.toFinset =
        inlinePkNames ct.columnDefs ∪ tablePkNames pknode.expressions ∧
      (∀ op ∈ pre, Op.isAddColumn op = true) ∧
      (∀ op ∈ post, Op.isAddColumn op = false) := by
  obtain ⟨colOps, pkCols, uniqSets, hshape, hunion, hcols⟩ :=
    processStatement_ok_shape sp ct te pknode ops htarget hpk h
  constructor
  · rw [hshape]
    rw [List.countP_append]
    have hc0 : colOps.countP Op.isPkConstraint = 0 := by
      rw [List.countP_eq_zero]
      intro op hop
      obtain ⟨col, rfl⟩ := hcols op hop
      simp [Op.isPkConstraint]
    rw [hc0]
    simp only [List.countP_cons]
    have hm0 : (uniqSets.map (fun s0 =>
        Op.addConstraint (_get_schema_name te sp) (_get_table_name te)
          ⟨s0, .UNIQUE⟩)).countP Op.isPkConstraint = 0 := by
      rw [List.countP_eq_zero]
      intro op hop
      obtain ⟨s0, _, rfl⟩ := List.mem_map.mp hop
      simp [Op.isPkConstraint]
    rw [hm0]
    simp [Op.isPkConstraint]
  · refine ⟨colOps, pkCols, _, hshape, hunion, ?_, ?_⟩
    · intro op hop
      obtain ⟨col, rfl⟩ := hcols op hop
      rfl
    · intro op hop
      obtain ⟨s0, _, rfl⟩ := List.mem_map.mp hop
      rfl

/-- Witness for C1: `CREATE TABLE t (a INT PRIMARY KEY, b INT, c INT,
PRIMARY KEY (b, c))` emits exactly one `PRIMARY_KEY` constraint, over
`{a} ∪ {b, c}`, after the three columns. -/
theorem claim_C1_pk_merge_witness :
    processStatement "public" exPkMerge = .ok exPkMergeOps ∧
    (exPkMergeOps.countP Op.isPkConstraint = 1 ∧
     ∃ pre pkCols post,
       exPkMergeOps = pre ++
         Op.addConstraint "public" "t" ⟨pkCols, .PRIMARY_KEY⟩ :: post ∧
       pkCols.toFinset =
         inlinePkNames exPkMerge.columnDefs ∪
           tablePkNames [⟨some (.ident ⟨"b", false⟩)⟩, ⟨some (.ident ⟨"c", false⟩)⟩] ∧
       (∀ op ∈ pre, Op.isAddColumn op = true) ∧
       (∀ op ∈ post, Op.isAddColumn op = false)) :=
  ⟨by decide,
   claim_C1_pk_merge "public" exPkMerge ⟨.ident ⟨"t", false⟩, none⟩
     ⟨[⟨some (.ident ⟨"b", false⟩)⟩, ⟨some (.ident ⟨"c", false⟩)⟩]⟩ exPkMergeOps
     (by decide) (by decide) (by decide) (by decide)⟩

theorem buildOps_error_of_mem (sp : String) (stmts : List Stmt) (ct : CreateTable)
    (hmem : Stmt.createTable ct ∈ stmts)
    (herr : ∃ e, processStatement sp ct = .error e) :
    ∃ e, buildOps sp stmts = .error e := by
  induction stmts with
  | nil => cases hmem
  | cons s rest ih =>
      rcases List.mem_cons.mp hmem with heq | hmem2
      · obtain ⟨e, he⟩ := herr
        refine ⟨e, ?_⟩
        rw [← heq]
        unfold buildOps
        rw [he]
      · cases s with
        | otherStmt =>
            obtain ⟨e, he⟩ := ih hmem2
            exact ⟨e, by unfold buildOps; exact he⟩
        | createTable ct2 =>
            cases hps : processStatement sp ct2 with
            | error e => exact ⟨e, by unfold buildOps; rw [hps]⟩
            | ok ops =>
                obtain ⟨e, he⟩ := ih hmem2
                exact ⟨e, by unfold buildOps; rw [hps, he]⟩

theorem processStatement_noPk_error (sp : String) (ct : CreateTable)
    (hnoinline : ∀ c ∈ ct.columnDefs, c.constraints.any isPrimaryKeyKind = false)
    (hnopk : ct.findPK = none) :
    ∃ e, processStatement sp ct = .error e := by
  unfold processStatement
  cases htarget : ct.target with
  | none => exact ⟨_, rfl⟩
  | some te =>
      simp only []
      cases hfk : fkLoop sp [] ct.foreignKeys with
      | error e => exact ⟨e, rfl⟩
      | ok fks =>
          simp only []
          cases hcl : columnsLoop sp (_get_schema_name te sp) (_get_table_name te)
              fks ct.columnDefs [] [] [] with
          | error e => exact ⟨e, rfl⟩
          | ok triple =>
              obtain ⟨pk1, uq1, colOps⟩ := triple
              simp only [hnopk]
              have hpk1 : pk1 = [] := by
                have h1 := columnsLoop_ok_pk sp (_get_schema_name te sp)
                  (_get_table_name te) fks ct.columnDefs [] pk1 [] uq1 [] colOps hcl
                have hempty : inlinePkNames ct.columnDefs = ∅ := by
                  unfold inlinePkNames
                  have hfil : ct.columnDefs.filter
                      (fun c => c.constraints.any isPrimaryKeyKind) = [] := by
                    rw [List.filter_eq_nil_iff]
                    intro c hc
                    simp [hnoinline c hc]
                  rw [hfil]
                  simp
                rw [hempty] at h1
                simp at h1
                exact h1
              subst hpk1
              cases hul : uniqueLoop ct.allUniqueNodes uq1 with
              | error e => exact ⟨e, rfl⟩
              | ok uqs2 =>
                  simp only []
                  exact ⟨_, by rw [if_pos trivial]⟩

/-- **C2.** A `CREATE TABLE` statement with no inline `PRIMARY KEY` marker and
no table-level `PRIMARY KEY` node makes the builder fail with a
structural-contract error, and whenever the statement list contains such a
statement the whole `build_catalog_from_sql` call produces an error and hence
no `Catalog` value at all, regardless of the other statements. -/
theorem claim_C2_missing_pk_fatal (sp : String) (stmts : List Stmt)
    (ct : CreateTable)
    (hmem : Stmt.createTable ct ∈ stmts)
    (hnoinline : ∀ c ∈ ct.columnDefs, c.constraints.any isPrimaryKeyKind = false)
    (hnopk : ct.findPK = none) :
    (∃ e, processStatement sp ct = .error e) ∧
    (∃ e, build_catalog_from_sql stmts sp = .error e) := by
  have h1 := processStatement_noPk_error sp ct hnoinline hnopk
  refine ⟨h1, ?_⟩
  obtain ⟨e, he⟩ := buildOps_error_of_mem sp stmts ct hmem h1
  exact ⟨e, by unfold build_catalog_from_sql; rw [he]⟩

/-- Witness for C2: `CREATE TABLE ok_t (x INT PRIMARY KEY); CREATE TABLE t
(a INT)` — the first statement alone builds fine, but the pair aborts with no
catalog. -/
theorem claim_C2_missing_pk_fatal_witness :
    ((∃ e, processStatement "public" exNoPk = .error e) ∧
     (∃ e, build_catalog_from_sql
        [Stmt.createTable exGoodStmt, Stmt.createTable exNoPk] "public" =
          .error e)) ∧
    build_catalog_from_sql [Stmt.createTable exGoodStmt] "public" =
      .ok ⟨[("public", ⟨[("ok_t",
        ⟨[⟨"x", "INT", none, none, true, none, none, none⟩],
         [⟨["x"], .PRIMARY_KEY⟩]⟩)]⟩)]⟩ :=
  ⟨claim_C2_missing_pk_fatal "public"
     [Stmt.createTable exGoodStmt, Stmt.createTable exNoPk] exNoPk
     (by decide) (by decide) (by decide),
   by decide⟩

/-- **C3.** For every column definition the builder processes, the emitted
foreign-key reference comes from the inline column-level `REFERENCES`
constraint when one is present (even when the column's name also appears in
the pre-scanned table-level mapping, which is ignored in that case); otherwise
from the pre-scanned table-level mapping under the column's name; otherwise
all three foreign-key fields are absent. -/
theorem claim_C3_fk_resolution (sp : String) (fks : List (String × FkRef))
    (c : ColumnDef) (r : ColResult)
    (h : processColumn sp fks c = .ok r) :
    (∀ ref sn te c0, findReference c.constraints = some ref →
        ref.this = some sn → sn.this = some te → sn.expressions[0]? = some c0 →
        r.col.fk_schema = some (_get_schema_name te sp) ∧
        r.col.fk_table = some (_get_table_name te) ∧
        r.col.fk_column = some (_get_identifier_name c0)) ∧
    (∀ v, findReference c.constraints = none →
        dictGet fks (_get_column_name c) = some v →
        r.col.fk_schema = some v.schema_name ∧
        r.col.fk_table = some v.table_name ∧
        r.col.fk_column = some v.column_name) ∧
    (findReference c.constraints = none →
        dictGet fks (_get_column_name c) = none →
        r.col.fk_schema = none ∧ r.col.fk_table = none ∧ r.col.fk_column = none) :=
  ⟨fun ref sn te c0 h1 h2 h3 h4 =>
      processColumn_fk_inline sp fks c r ref sn te c0 h1 h2 h3 h4 h,
   fun v h1 h2 => processColumn_fk_dict sp fks c r v h1 h2 h,
   fun h1 h2 => processColumn_fk_none sp fks c r h1 h2 h⟩

/-- Witness for C3: a column `id INT REFERENCES other(x)` whose name also
appears in the table-level mapping (pointing at `other2(y)`) resolves to the
inline reference `other(x)`. -/
theorem claim_C3_fk_resolution_witness :
    processColumn "public" exFksDict exFkColumn =
      .ok ⟨⟨"id", "INT", none, none, true,
            some "public", some "other", some "x"⟩, false, false⟩ ∧
    dictGet exFksDict (_get_column_name exFkColumn) =
      some ⟨"public", "other2", "y"⟩ ∧
    ((⟨⟨"id", "INT", none, none, true,
        some "public", some "other", some "x"⟩, false, false⟩ : ColResult).col.fk_schema
        = some "public" ∧
     (⟨⟨"id", "INT", none, none, true,
        some "public", some "other", some "x"⟩, false, false⟩ : ColResult).col.fk_table
        = some "other" ∧
     (⟨⟨"id", "INT", none, none, true,
        some "public", some "other", some "x"⟩, false, false⟩ : ColResult).col.fk_column
        = some "x") := by
  refine ⟨by decide, by decide, ?_⟩
  exact (claim_C3_fk_resolution "public" exFksDict exFkColumn
      ⟨⟨"id", "INT", none, none, true,
        some "public", some "other", some "x"⟩, false, false⟩ (by decide)).1
    exInlineRef ⟨some ⟨.ident ⟨"other", false⟩, none⟩, [⟨"x", false⟩]⟩
    ⟨.ident ⟨"other", false⟩, none⟩ ⟨"x", false⟩
    (by decide) (by decide) (by decide) (by decide)

/-- **C4.** In the subquery walk, a parenthesized group containing a `SELECT`
is recorded as `(inner text with the parenthesis markers stripped,
current clause or UNKNOWN, depth+1)` and its inner tokens are re-walked with
the clause context reset and the depth incremented; a parenthesized group
with no `SELECT` inside is recorded as nothing and descended into at the same
clause and depth. Consequently, on the spec's nested example the two
subqueries are reported at depths 1 and 2 with the enclosing parentheses
stripped from the recorded texts. -/
theorem claim_C4_subquery_walk :
    (∀ v toks rest clause depth, _has_select_inside toks = true →
        walkList (.cons (.paren v toks) rest) clause depth =
          (_inner_text_once v, clause.getD "UNKNOWN", depth + 1) ::
            (walkList toks none (depth + 1) ++ walkList rest clause depth)) ∧
    (∀ v toks rest clause depth, _has_select_inside toks = false →
        walkList (.cons (.paren v toks) rest) clause depth =
          walkList toks clause depth ++ walkList rest clause depth) ∧
    extract_subqueries_tokens [exSubqueryStmt] =
      [("SELECT id FROM u WHERE x IN (SELECT y FROM v)", "IN", 1),
       ("SELECT y FROM v", "IN", 2)] := by
  refine ⟨?_, ?_, by decide⟩
  · intro v toks rest clause depth hsel
    simp [walkList, updateClause, hsel]
  · intro v toks rest clause depth hsel
    simp [walkList, updateClause, hsel]

/-- Witness for C4: a `( SELECT 1 )` group in a `WHERE` context is recorded,
stripped, at depth 1; a `(1, 2)` group is not recorded. -/
theorem claim_C4_subquery_walk_witness :
    (walkList (.cons (.paren "( SELECT 1 )" exSelTokens) .nil) (some "WHERE") 0 =
      ("SELECT 1", "WHERE", 1) ::
        (walkList exSelTokens none 1 ++ walkList .nil (some "WHERE") 0)) ∧
    (walkList (.cons (.paren "(1, 2)" exListTokens) .nil) (some "WHERE") 0 =
      walkList exListTokens (some "WHERE") 0 ++ walkList .nil (some "WHERE") 0) :=
  ⟨claim_C4_subquery_walk.1 "( SELECT 1 )" exSelTokens .nil (some "WHERE") 0
     (by decide),
   claim_C4_subquery_walk.2.1 "(1, 2)" exListTokens .nil (some "WHERE") 0
     (by decide)⟩

/-- **C5 (code bug).** `statement.find_all(exp.UniqueColumnConstraint)` also
returns the node of an inline column `UNIQUE` marker, whose `this` is not a
`Schema`, so the table-level unique loop's assert fires and the whole build of
`CREATE TABLE t (a INT PRIMARY KEY, b INT UNIQUE)` aborts — where the spec
says an inline `UNIQUE` marker contributes a single-column unique set and is
not fatal. -/
theorem claim_C5_inline_unique_fatal :
    CreateTable.allUniqueNodes exInlineUnique = [⟨none, []⟩] ∧
    build_catalog_from_sql [Stmt.createTable exInlineUnique] "public" =
      .error "Expected Schema expression in Unique constraint" :=
  ⟨by decide, by decide⟩

/-- **C6.** Identifier normalization: a quoted identifier keeps its exact
text and an unquoted one is lower-cased, uniformly for schema, table and
column names; `CREATE TABLE Users (Id INT PRIMARY KEY)` yields table `users`
with column `id`, while the quoted forms `"Users"`/`"Id"` are preserved
verbatim in the resulting catalog. -/
theorem claim_C6_identifier_normalization :
    (∀ n, _get_identifier_name ⟨n, true⟩ = n) ∧
    (∀ n, _get_identifier_name ⟨n, false⟩ = strLower n) ∧
    (∀ i db, _get_table_name ⟨.ident i, db⟩ = _get_identifier_name i) ∧
    (∀ t i sp, _get_schema_name ⟨t, some (.ident i)⟩ sp = _get_identifier_name i) ∧
    (∀ i k cs, _get_column_name ⟨.ident i, k, cs⟩ = _get_identifier_name i) ∧
    build_catalog_from_sql [.createTable exUnquoted] "public" =
      .ok ⟨[("public", ⟨[("users",
        ⟨[⟨"id", "INT", none, none, true, none, none, none⟩],
         [⟨["id"], .PRIMARY_KEY⟩]⟩)]⟩)]⟩ ∧
    build_catalog_from_sql [.createTable exQuoted] "public" =
      .ok ⟨[("public", ⟨[("Users",
        ⟨[⟨"Id", "INT", none, none, true, none, none, none⟩],
         [⟨["Id"], .PRIMARY_KEY⟩]⟩)]⟩)]⟩ :=
  ⟨fun _ => rfl, fun _ => rfl, fun _ _ => rfl, fun _ _ _ => rfl,
   fun _ _ _ => rfl, by decide, by decide⟩

/-- **C7 counterexample:** for `DECIMAL(10, 2, 3)` the second type argument
is present and is an integer literal, yet the extracted scale is `None` (the
source sets a scale only when the argument list has length exactly 2), so the
claim as stated fails at this input. -/
theorem claim_C7_scale_counterexample :
    exDecimalThreeArgs.kind =
      some ⟨"DECIMAL", [.intLit 10, .intLit 2, .intLit 3]⟩ ∧
    _extract_datatype exDecimalThreeArgs = .ok ("DECIMAL", some 10, none) ∧
    _extract_datatype exDecimalThreeArgs ≠ .ok ("DECIMAL", some 10, some 2) :=
  ⟨by decide, by decide, by decide⟩

/-- **C7 (amended).** Precision and scale are interpreted only for `DECIMAL`,
`NUMERIC`, `NUMBER`, `FLOAT`: the first argument, when an integer literal,
becomes the precision; the second becomes the scale only when the argument
list has exactly two entries and it is an integer literal; non-integer-literal
arguments leave the corresponding field `None`; any other keyword yields
`None`, `None` regardless of arguments. -/
theorem claim_C7_datatype_amended :
    (∀ ne cs k args,
        ¬ (k = "DECIMAL" ∨ k = "NUMERIC" ∨ k = "NUMBER" ∨ k = "FLOAT") →
        _extract_datatype ⟨ne, some ⟨k, args⟩, cs⟩ = .ok (k, none, none)) ∧
    (∀ ne cs k p s0,
        (k = "DECIMAL" ∨ k = "NUMERIC" ∨ k = "NUMBER" ∨ k = "FLOAT") →
        _extract_datatype ⟨ne, some ⟨k, [.intLit p, .intLit s0]⟩, cs⟩ =
          .ok (k, some p, some s0)) ∧
    (∀ ne cs k p,
        (k = "DECIMAL" ∨ k = "NUMERIC" ∨ k = "NUMBER" ∨ k = "FLOAT") →
        _extract_datatype ⟨ne, some ⟨k, [.intLit p]⟩, cs⟩ =
          .ok (k, some p, none)) ∧
    (∀ ne cs k args, args.length ≠ 2 →
        ∃ pr, _extract_datatype ⟨ne, some ⟨k, args⟩, cs⟩ = .ok (k, pr, none)) ∧
    (∀ ne cs k args, (∀ n, args[0]? ≠ some (.intLit n)) →
        ∃ sc, _extract_datatype ⟨ne, some ⟨k, args⟩, cs⟩ = .ok (k, none, sc)) ∧
    (∀ ne cs k a b,
        (∀ n, b ≠ TypeArg.intLit n) →
        ∃ pr, _extract_datatype ⟨ne, some ⟨k, [a, b]⟩, cs⟩ = .ok (k, pr, none)) ∧
    (_extract_datatype ⟨.ident ⟨"x", false⟩, some ⟨"NUMERIC",
        [.intLit 10, .intLit 2]⟩, []⟩ = .ok ("NUMERIC", some 10, some 2) ∧
     _extract_datatype ⟨.ident ⟨"x", false⟩, some ⟨"VARCHAR",
        [.intLit 100]⟩, []⟩ = .ok ("VARCHAR", none, none) ∧
     _extract_datatype ⟨.ident ⟨"x", false⟩, some ⟨"FLOAT",
        [.intLit 8]⟩, []⟩ = .ok ("FLOAT", some 8, none)) := by
  refine ⟨?_, ?_, ?_, ?_, ?_, ?_, by decide, by decide, by decide⟩
  · intro ne cs k args hk
    unfold _extract_datatype
    dsimp only
    rw [if_neg (fun h => hk h.2.1), if_neg (fun h => hk h.2.1)]
  · intro ne cs k p s0 hk
    unfold _extract_datatype
    dsimp only
    rw [if_pos ⟨by simp, hk, by simp⟩, if_pos ⟨by simp, hk, by simp⟩]
    rfl
  · intro ne cs k p hk
    unfold _extract_datatype
    dsimp only
    rw [if_pos ⟨by simp, hk, by simp⟩, if_neg (fun h => by simpa using h.2.2)]
    rfl
  · intro ne cs k args hlen
    unfold _extract_datatype
    dsimp only
    by_cases hp : args ≠ [] ∧
        (k = "DECIMAL" ∨ k = "NUMERIC" ∨ k = "NUMBER" ∨ k = "FLOAT") ∧
        1 ≤ args.length
    · rw [if_pos hp, if_neg (fun h => hlen h.2.2)]
      exact ⟨_, rfl⟩
    · rw [if_neg hp, if_neg (fun h => hlen h.2.2)]
      exact ⟨_, rfl⟩
  · intro ne cs k args h0
    unfold _extract_datatype
    dsimp only
    by_cases hcond : (⟨k, args⟩ : DataType).expressions ≠ [] ∧
        (k = "DECIMAL" ∨ k = "NUMERIC" ∨ k = "NUMBER" ∨ k = "FLOAT") ∧
        1 ≤ (⟨k, args⟩ : DataType).expressions.length
    · rw [if_pos hcond]
      cases ha : args[0]? with
      | none => simp only [ha]; exact ⟨_, rfl⟩
      | some a =>
          cases a with
          | intLit n => exact absurd ha (h0 n)
          | otherLit => simp only [ha]; exact ⟨_, rfl⟩
          | nonLiteral => simp only [ha]; exact ⟨_, rfl⟩
    · rw [if_neg hcond]
      exact ⟨_, rfl⟩
  · intro ne cs k a b hb
    unfold _extract_datatype
    dsimp only
    by_cases hcond : (⟨k, [a, b]⟩ : DataType).expressions ≠ [] ∧
        (k = "DECIMAL" ∨ k = "NUMERIC" ∨ k = "NUMBER" ∨ k = "FLOAT") ∧
        (⟨k, [a, b]⟩ : DataType).expressions.length = 2
    · rw [if_pos hcond]
      cases b with
      | intLit n => exact absurd rfl (hb n)
      | otherLit => exact ⟨_, rfl⟩
      | nonLiteral => exact ⟨_, rfl⟩
    · rw [if_neg hcond]
      exact ⟨_, rfl⟩

/-- Witness for C7's amended theorem at the spec's own instances. -/
theorem claim_C7_datatype_amended_witness :
    _extract_datatype ⟨.ident ⟨"y", false⟩, some ⟨"DECIMAL",
        [.intLit 7, .intLit 3]⟩, []⟩ = .ok ("DECIMAL", some 7, some 3) ∧
    _extract_datatype ⟨.ident ⟨"y", false⟩, some ⟨"INT", [.intLit 4]⟩, []⟩ =
      .ok ("INT", none, none) :=
  ⟨claim_C7_datatype_amended.2.1 (.ident ⟨"y", false⟩) [] "DECIMAL" 7 3
     (Or.inl rfl),
   claim_C7_datatype_amended.1 (.ident ⟨"y", false⟩) [] "INT" [.intLit 4]
     (by decide)⟩

/-- **C8.** `remove_ctes` returns the SQL text of the query with its `WITH`
clause removed while leaving the input tree (and every other pre-existing
heap object) unmodified — it deep-copies the tree and clears only the copy's
`with` attachment — and returns the empty string, with the heap unchanged,
for an absent tree. -/
theorem claim_C8_remove_ctes (s : Store) (r : Nat) (a : QueryAst)
    (h : s.objs[r]? = some a) :
    (remove_ctes s (some r)).1 = (clearWith a).sql ∧
    (remove_ctes s (some r)).1 = a.mainText ∧
    (∀ i, i < s.objs.length → (remove_ctes s (some r)).2.objs[i]? = s.objs[i]?) ∧
    (remove_ctes s (some r)).2.objs[r]? = some a ∧
    (∀ s2, remove_ctes s2 none = ("", s2)) := by
  have hr : r < s.objs.length := by
    by_contra hge
    rw [List.getElem?_eq_none (by omega)] at h
    exact Option.noConfusion h
  have hcat : (s.objs ++ [a])[s.objs.length]? = some a :=
    List.getElem?_concat_length s.objs a
  have hget : ((s.objs ++ [a]).set s.objs.length (clearWith a))[s.objs.length]? =
      some (clearWith a) := by
    rw [List.getElem?_set_eq_of_lt]
    simp
  have hres : remove_ctes s (some r) =
      ((clearWith a).sql, ⟨(s.objs ++ [a]).set s.objs.length (clearWith a)⟩) := by
    unfold remove_ctes deepcopy storeSet
    simp [h, hcat, hget]
  have hframe : ∀ i, i < s.objs.length →
      ((s.objs ++ [a]).set s.objs.length (clearWith a))[i]? = s.objs[i]? := by
    intro i hi
    rw [List.getElem?_set_ne (by omega)]
    rw [List.getElem?_append]
    rw [if_pos hi]
  refine ⟨by rw [hres], by rw [hres]; rfl, ?_, ?_, fun s2 => rfl⟩
  · intro i hi
    rw [hres]
    exact hframe i hi
  · rw [hres]
    rw [hframe r hr]
    exact h

/-- Witness for C8: stripping `WITH x AS (SELECT 1) SELECT * FROM x` yields
`SELECT * FROM x` and leaves the stored input object unchanged. -/
theorem claim_C8_remove_ctes_witness :
    (remove_ctes exCteStore (some 0)).1 = "SELECT * FROM x" ∧
    (remove_ctes exCteStore (some 0)).2.objs[0]? =
      some ⟨some "x AS (SELECT 1)", "SELECT * FROM x"⟩ :=
  ⟨(claim_C8_remove_ctes exCteStore 0
      ⟨some "x AS (SELECT 1)", "SELECT * FROM x"⟩ (by decide)).2.1,
   (claim_C8_remove_ctes exCteStore 0
      ⟨some "x AS (SELECT 1)", "SELECT * FROM x"⟩ (by decide)).2.2.2.1⟩

theorem buildOps_all_other (sp : String) (stmts : List Stmt)
    (h : ∀ s ∈ stmts, s = Stmt.otherStmt) :
    buildOps sp stmts = .ok [] := by
  induction stmts with
  | nil => rfl
  | cons s rest ih =>
      have hs := h s (List.mem_cons_self s rest)
      subst hs
      unfold buildOps
      exact ih fun s hs => h s (List.mem_cons_of_mem _ hs)

/-- **C9.** A statement list with no `CREATE TABLE` statement — in particular
the result of parsing empty or whitespace-only SQL text — yields a catalog
with zero schemas and no error, and a statement that is not a `CREATE TABLE`
is silently skipped: it contributes nothing to the build. -/
theorem claim_C9_empty_input_and_skip (sp : String) (stmts rest : List Stmt)
    (h : ∀ s ∈ stmts, s = Stmt.otherStmt) :
    build_catalog_from_sql stmts sp = .ok ⟨[]⟩ ∧
    build_catalog_from_sql (Stmt.otherStmt :: rest) sp =
      build_catalog_from_sql rest sp := by
  constructor
  · unfold build_catalog_from_sql
    rw [buildOps_all_other sp stmts h]
    rfl
  · rfl

/-- Witness for C9: the empty statement list and a lone non-`CREATE TABLE`
statement both yield the empty catalog. -/
theorem claim_C9_empty_input_and_skip_witness :
    (build_catalog_from_sql [] "public" = .ok ⟨[]⟩ ∧
     build_catalog_from_sql [Stmt.otherStmt] "public" =
       build_catalog_from_sql [] "public") ∧
    build_catalog_from_sql [Stmt.otherStmt] "public" = .ok ⟨[]⟩ :=
  ⟨claim_C9_empty_input_and_skip "public" [] [] (by simp),
   by decide⟩

theorem dictGet_cons (x : String × FkRef) (l : List (String × FkRef)) (k : String) :
    dictGet (x :: l) k = if x.1 = k then some x.2 else dictGet l k := by
  unfold dictGet
  rw [List.find?_cons]
  by_cases hx : x.1 = k
  · simp [hx]
  · simp [hx]

theorem dictGet_map_ne (d : List (String × FkRef)) (k k2 : String) (v : FkRef)
    (hne : k2 ≠ k) :
    dictGet (d.map fun p => if p.1 = k then (k, v) else p) k2 = dictGet d k2 := by
  induction d with
  | nil => rfl
  | cons a d ih =>
      rw [List.map_cons, dictGet_cons, dictGet_cons]
      by_cases ha : a.1 = k
      · rw [if_pos ha]
        have h1 : ¬ ((k, v).1 = k2) := fun hh => hne hh.symm
        have h2 : ¬ (a.1 = k2) := fun hh => hne (hh ▸ ha)
        rw [if_neg h1, if_neg h2, ih]
      · rw [if_neg ha, ih]

theorem dictGet_map_self (d : List (String × FkRef)) (k : String) (v : FkRef)
    (hany : d.any (fun p => p.1 = k) = true) :
    dictGet (d.map fun p => if p.1 = k then (k, v) else p) k = some v := by
  induction d with
  | nil => simp at hany
  | cons a d ih =>
      rw [List.map_cons, dictGet_cons]
      by_cases ha : a.1 = k
      · rw [if_pos ha, if_pos rfl]
      · rw [if_neg ha, if_neg ha]
        apply ih
        rw [List.any_cons] at hany
        rcases Bool.or_eq_true_iff.mp hany with h1 | h2
        · exact absurd (of_decide_eq_true h1) ha
        · exact h2

theorem dictGet_append_miss (d : List (String × FkRef)) (k k2 : String) (v : FkRef)
    (hne : k2 ≠ k) :
    dictGet (d ++ [(k, v)]) k2 = dictGet d k2 := by
  induction d with
  | nil =>
      rw [List.nil_append, dictGet_cons]
      rw [if_neg (fun hh => hne hh.symm)]
  | cons a d ih =>
      rw [List.cons_append, dictGet_cons, dictGet_cons, ih]

theorem dictGet_append_hit (d : List (String × FkRef)) (k : String) (v : FkRef)
    (hnone : d.any (fun p => p.1 = k) = false) :
    dictGet (d ++ [(k, v)]) k = some v := by
  induction d with
  | nil =>
      rw [List.nil_append, dictGet_cons, if_pos rfl]
  | cons a d ih =>
      rw [List.cons_append, dictGet_cons]
      rw [List.any_cons] at hnone
      obtain ⟨h1, h2⟩ := Bool.or_eq_false_iff.mp hnone
      rw [if_neg (of_decide_eq_false h1)]
      exact ih h2

theorem dictGet_dictInsert (d : List (String × FkRef)) (k k2 : String) (v : FkRef) :
    dictGet (dictInsert d k v) k2 = if k2 = k then some v else dictGet d k2 := by
  unfold dictInsert
  by_cases hany : d.any (fun p => p.1 = k) = true
  · rw [if_pos hany]
    by_cases hk : k2 = k
    · subst hk
      rw [if_pos rfl]
      exact dictGet_map_self d k2 v hany
    · rw [if_neg hk]
      exact dictGet_map_ne d k k2 v hk
  · have hany2 : d.any (fun p => p.1 = k) = false := by
      rwa [← Bool.not_eq_true]
    rw [if_neg hany]
    by_cases hk : k2 = k
    · subst hk
      rw [if_pos rfl]
      exact dictGet_append_hit d k2 v hany2
    · rw [if_neg hk]
      exact dictGet_append_miss d k k2 v hk

theorem lastVal_cons (p : String × FkRef) (rest : List (String × FkRef))
    (k : String) :
    lastVal (p :: rest) k =
      match lastVal rest k with
      | some v => some v
      | none => if p.1 = k then some p.2 else none := by
  unfold lastVal
  rw [List.filter_cons]
  by_cases hp : p.1 = k
  · rw [if_pos (by simpa using hp)]
    cases hf : rest.filter (fun q => decide (q.1 = k)) with
    | nil =>
        rw [List.getLast?_singleton]
        simp [hp]
    | cons q l =>
        rw [List.getLast?_cons_cons]
        cases hl : (q :: l).getLast? with
        | none => simp at hl
        | some w => simp [hl]
  · rw [if_neg (by simpa using hp)]
    cases hl : (rest.filter (fun q => decide (q.1 = k))).getLast? with
    | none => simp [hl, hp]
    | some w => simp [hl]

theorem dictGet_foldl_pairs (pairs : List (String × FkRef))
    (d : List (String × FkRef)) (k : String) :
    dictGet (pairs.foldl (fun acc p => dictInsert acc p.1 p.2) d) k =
      match lastVal pairs k with
      | some v => some v
      | none => dictGet d k := by
  induction pairs generalizing d with
  | nil => simp [lastVal]
  | cons p rest ih =>
      rw [List.foldl_cons, ih, lastVal_cons]
      cases hlv : lastVal rest k with
      | some v => rfl
      | none =>
          rw [dictGet_dictInsert]
          by_cases hk : k = p.1
          · rw [if_pos hk, if_pos hk.symm]
          · rw [if_neg hk, if_neg (fun hh => hk hh.symm)]

/-- **C10.** When two table-level `FOREIGN KEY` clauses of the same statement
list the same local column name, the pre-scanned mapping keeps the entry of
the clause appearing later (last-wins, no error), so a column with that name
and no inline `REFERENCES` constraint is emitted with the later clause's
reference. -/
theorem claim_C10_fk_last_wins (sp : String) (f1 f2 : ForeignKeyNode)
    (d p2 : List (String × FkRef)) (c : String) (r2 : FkRef)
    (h : fkLoop sp [] [f1, f2] = .ok d)
    (hp2 : fkClausePairs sp f2 = .ok p2)
    (hlast : lastVal p2 c = some r2) :
    dictGet d c = some r2 ∧
    (∀ col res, _get_column_name col = c →
        findReference col.constraints = none →
        processColumn sp d col = .ok res →
        res.col.fk_schema = some r2.schema_name ∧
        res.col.fk_table = some r2.table_name ∧
        res.col.fk_column = some r2.column_name) := by
  have hd : dictGet d c = some r2 := by
    unfold fkLoop at h
    cases h1 : fkClausePairs sp f1 with
    | error e => simp only [h1] at h; exact Except.noConfusion h
    | ok p1 =>
        simp only [h1] at h
        unfold fkLoop at h
        simp only [hp2] at h
        unfold fkLoop at h
        cases h
        rw [dictGet_foldl_pairs, hlast]
  refine ⟨hd, ?_⟩
  intro col res hname hfr hpc
  exact processColumn_fk_dict sp d col res r2 hfr (by rw [hname, hd]) hpc

/-- Witness for C10: `FOREIGN KEY (id) REFERENCES other2 (y)` followed by
`FOREIGN KEY (id) REFERENCES other3 (z)` maps `id` to `other3 (z)`, and a
plain column `id INT` is emitted with that reference. -/
theorem claim_C10_fk_last_wins_witness :
    (dictGet [("id", (⟨"public", "other3", "z"⟩ : FkRef))] "id" =
      some ⟨"public", "other3", "z"⟩) ∧
    ((⟨⟨"id", "INT", none, none, true,
        some "public", some "other3", some "z"⟩, false, false⟩ : ColResult).col.fk_schema
        = some "public" ∧
     (⟨⟨"id", "INT", none, none, true,
        some "public", some "other3", some "z"⟩, false, false⟩ : ColResult).col.fk_table
        = some "other3" ∧
     (⟨⟨"id", "INT", none, none, true,
        some "public", some "other3", some "z"⟩, false, false⟩ : ColResult).col.fk_column
        = some "z") :=
  ⟨(claim_C10_fk_last_wins "public" exFkClause1 exFkClause2
      [("id", ⟨"public", "other3", "z"⟩)] [("id", ⟨"public", "other3", "z"⟩)]
      "id" ⟨"public", "other3", "z"⟩ (by decide) (by decide) (by decide)).1,
   (claim_C10_fk_last_wins "public" exFkClause1 exFkClause2
      [("id", ⟨"public", "other3", "z"⟩)] [("id", ⟨"public", "other3", "z"⟩)]
      "id" ⟨"public", "other3", "z"⟩ (by decide) (by decide) (by decide)).2
     exPlainColumn
     ⟨⟨"id", "INT", none, none, true,
       some "public", some "other3", some "z"⟩, false, false⟩
     (by decide) (by decide) (by decide)⟩

end Sqlscope
